import Mathlib

/-!
Verification of the lead-script generation pipeline (src/app.py).

The development shallowly embeds the core functions of the program:
`detect_company_dna`, `assign_priority`, `generate_email_subject`,
`generate_email_body`, `generate_linkedin_message` and `process_leads`.
Python scalar values are modelled by the inductive type `Value`
(strings, integers, and the float NaN that pandas uses for missing
cells); Python dictionaries by association lists where the last
binding of a key wins, matching insertion-order overwrite semantics;
Python exceptions by `Except PyErr`.  Characters are modelled at the
level of Unicode code points, matching Python `len` and slicing;
digit and whitespace classification is modelled for ASCII text.
-/

namespace LeadScript

/-- A Python scalar value as it appears in a pandas row: a string, an
integer, or the float NaN used for missing cells. -/
inductive Value where
  | str (s : String)
  | int (n : Int)
  | nan
deriving DecidableEq

/-- Python truthiness for the scalars modelled: empty string and the
integer 0 are falsy, NaN is truthy. -/
def truthy : Value → Bool
  | .str s => s ≠ ""
  | .int n => n ≠ 0
  | .nan => true

/-- Python str() on a scalar value. -/
def pyStr : Value → String
  | .str s => s
  | .int n => toString n
  | .nan => "nan"

/-- Embedding of Python str.lower for ASCII text: lower-case every
character. -/
def pyLower (s : String) : String := String.mk (s.data.map Char.toLower)

/-- Embedding of Python str.replace with a single-character pattern and
a single-character replacement. -/
def pyReplaceChar (s : String) (a b : Char) : String :=
  String.mk (s.data.map (fun c => if c = a then b else c))

/-- Embedding of Python str.replace with a single-character pattern and
an empty replacement: every occurrence of the character is removed. -/
def removeAllChar (c : Char) (l : List Char) : List Char :=
  l.filter (fun x => x ≠ c)

/-- Whitespace recognised by Python str.split and int, restricted to
ASCII: space, tab, newline, carriage return, vertical tab, form feed. -/
def isPySpace (c : Char) : Bool :=
  c = ' ' || c = '\t' || c = '\n' || c = '\r' || c = Char.ofNat 11 || c = Char.ofNat 12

/-- Split a list at every character satisfying the predicate, keeping
empty chunks. -/
def splitChunks (p : Char → Bool) : List Char → List (List Char)
  | [] => [[]]
  | c :: rest =>
    let r := splitChunks p rest
    if p c then [] :: r
    else
      match r with
      | [] => [[c]]
      | h :: t => (c :: h) :: t

/-- Embedding of Python str.split with no argument: split on runs of
whitespace and drop empty tokens, so a whitespace-only string yields
the empty list. -/
def pySplitWs (s : String) : List String :=
  ((splitChunks isPySpace s.data).filter (fun l => l ≠ [])).map (fun l => String.mk l)

/-- Is the first list a leading segment of the second. -/
def leadsList : List Char → List Char → Bool
  | [], _ => true
  | _ :: _, [] => false
  | a :: as, b :: bs => a = b && leadsList as bs

/-- Helper for `hasSubstr`: does the pattern occur in the haystack. -/
def subOccurs (n : List Char) : List Char → Bool
  | [] => n.isEmpty
  | c :: rest => leadsList n (c :: rest) || subOccurs n rest

/-- Embedding of the Python substring test `pat in s`. -/
def hasSubstr (s pat : String) : Bool := subOccurs pat.data s.data

/-- Exceptions that the embedded code can raise. -/
inductive PyErr where
  | indexError
  | attributeError
deriving DecidableEq

/-- The canonical lead record built by the normaliser inside
`process_leads` (src/app.py lines 206 to 214): the seven fields keep the
raw scalar values selected from the row dictionary. -/
structure CanonicalLead where
  first_name : Value
  last_name : Value
  company : Value
  title : Value
  email : Value
  linkedin : Value
  employees : Value
deriving DecidableEq

/-- A raw input row: an ordered list of column-name and value pairs.
Building a Python dict from it lets a later duplicate key overwrite an
earlier one. -/
def RawRecord := List (String × Value)

/-- A dictionary after normalisation of the keys. -/
def Dict := List (String × Value)

/-- Python dict lookup: the value of the last binding of the key. -/
def pyDictGet (d : Dict) (k : String) : Option Value :=
  (d.reverse.find? (fun kv => kv.1 = k)).map (fun kv => kv.2)

/-- Python dict .get with a default value. -/
def pyDictGetD (d : Dict) (k : String) (dflt : Value) : Value :=
  (pyDictGet d k).getD dflt

/-- Key normalisation of src/app.py line 203: lower-case the key and
replace spaces with underscores. -/
def normKey (k : String) : String := pyReplaceChar (pyLower k) ' ' '_'

/-- The normalised row dictionary of src/app.py line 203. -/
def normRowDict (r : RawRecord) : Dict :=
  r.map (fun kv => (normKey kv.1, kv.2))

/-- The fallback expression of src/app.py line 207:
`row_dict.get("name", "there").split()[0] if row_dict.get("name") else "there"`.
Python evaluates this expression eagerly as the default argument of the
outer .get calls, for every row.  When the name value is truthy it must
be a string whose whitespace split is non-empty, otherwise the
expression raises (AttributeError on a non-string, IndexError on a
whitespace-only string). -/
def nameFallback (d : Dict) : Except PyErr Value :=
  match pyDictGet d "name" with
  | some v =>
    if truthy v then
      match v with
      | .str s =>
        match pySplitWs s with
        | [] => .error .indexError
        | t :: _ => .ok (.str t)
      | _ => .error .attributeError
    else .ok (.str "there")
  | none => .ok (.str "there")

/-- The first_name resolution of src/app.py line 207.  The eager
evaluation of the default argument means `nameFallback` runs (and can
raise) even when the first_name key is present. -/
def firstNameValue (d : Dict) : Except PyErr Value := do
  let fb ← nameFallback d
  .ok ((pyDictGet d "first_name").getD ((pyDictGet d "firstname").getD fb))

/-- The field-extraction step of src/app.py lines 206 to 214, applied to
an already normalised row dictionary. -/
def leadFrom (d : Dict) : Except PyErr CanonicalLead := do
  let fn ← firstNameValue d
  .ok { first_name := fn
        last_name := pyDictGetD d "last_name" (pyDictGetD d "lastname" (.str ""))
        company := pyDictGetD d "company" (pyDictGetD d "company_name" (pyDictGetD d "organization" (.str "Unknown")))
        title := pyDictGetD d "title" (pyDictGetD d "job_title" (pyDictGetD d "position" (.str "")))
        email := pyDictGetD d "email" (pyDictGetD d "email_address" (.str ""))
        linkedin := pyDictGetD d "linkedin" (pyDictGetD d "linkedin_url" (pyDictGetD d "profile_url" (.str "")))
        employees := pyDictGetD d "employees" (pyDictGetD d "company_size" (pyDictGetD d "size" (.str ""))) }

/-- The Normalizer step of `process_leads` (src/app.py lines 201 to
214): normalise the keys, then extract the seven canonical fields. -/
def normalize_row (r : RawRecord) : Except PyErr CanonicalLead :=
  leadFrom (normRowDict r)

/-! ## Integer parsing (Python int applied to a string) -/

/-- Valid continuation of a digit string for Python int: digits, with
single underscores allowed only between digits.  The flag records
whether the previous character was an underscore, in which case only a
digit may follow and the string may not end. -/
def digitsRest (afterUnd : Bool) : List Char → Bool
  | [] => !afterUnd
  | c :: r =>
    if c = '_' then !afterUnd && digitsRest true r
    else c.isDigit && digitsRest false r

/-- A non-empty digit string (ASCII digits, with single underscores
between digits), as accepted by Python int after sign and whitespace
handling. -/
def digitsOk : List Char → Bool
  | [] => false
  | c :: rest => c.isDigit && digitsRest false rest

/-- The numeric value of a list of ASCII digits. -/
def natOfDigits (l : List Char) : Nat :=
  l.foldl (fun a c => 10 * a + (c.toNat - 48)) 0

/-- Parse an unsigned digit string, None when malformed. -/
def digitsVal (l : List Char) : Option Nat :=
  if digitsOk l then some (natOfDigits (removeAllChar '_' l)) else none

/-- Drop trailing whitespace. -/
def dropTrailWs (l : List Char) : List Char :=
  (l.reverse.dropWhile isPySpace).reverse

/-- Drop leading and trailing whitespace, as Python int does before
reading an optional sign and the digits. -/
def trimWs (l : List Char) : List Char :=
  dropTrailWs (l.dropWhile isPySpace)

/-- Parse an optional sign followed by a digit string. -/
def parseSigned (l : List Char) : Option Int :=
  match l with
  | [] => none
  | c :: rest =>
    if c = '+' then (digitsVal rest).map Int.ofNat
    else if c = '-' then (digitsVal rest).map (fun m => -(Int.ofNat m))
    else (digitsVal l).map Int.ofNat

/-- Embedding of Python int on a list of characters: trim whitespace,
then an optional sign and a non-empty digit string; None models the
ValueError that the source catches. -/
def pyIntL (l : List Char) : Option Int := parseSigned (trimWs l)

/-- The character clean-up of src/app.py line 62:
`str(employees).replace(",", "").replace("+", "")` removes every comma
and every plus sign. -/
def codeStripL (l : List Char) : List Char :=
  removeAllChar '+' (removeAllChar ',' l)

/-- Drop every trailing plus sign.  This is the formalisation of the
claim wording, stripping commas and the trailing plus only; it is
compared against `codeStripL` which the source actually uses. -/
def stripTrailingPlus (l : List Char) : List Char :=
  (l.reverse.dropWhile (fun c => c = '+')).reverse

/-- The parse described by the claim wording for C2: strip commas and a
trailing plus, then parse as an integer. -/
def specParse (s : String) : Option Int :=
  pyIntL (stripTrailingPlus (removeAllChar ',' s.data))

/-! ## Classifier -/

/-- Keyword set for the agency archetype (src/app.py line 73). -/
def agencyWords : List String := ["consulting", "agency", "partners", "group"]

/-- Keyword set for the enterprise archetype (src/app.py line 75). -/
def enterpriseWords : List String := ["inc", "corp", "global", "international"]

/-- The keyword-based detection of src/app.py lines 72 to 78, reached
both when employees is falsy and when its parse fails.  The argument is
the already lower-cased company string. -/
def keywordDna (company : String) : String :=
  if agencyWords.any (fun w => hasSubstr company w) then "Agency/Consultancy"
  else if enterpriseWords.any (fun w => hasSubstr company w) then "Enterprise"
  else "Mid-Market"

/-- Embedding of detect_company_dna (src/app.py lines 53 to 78).  The
source also lower-cases the title but never uses it.  The try block
around int only catches the parse failure, which falls through to the
keyword detection. -/
def detect_company_dna (lead : CanonicalLead) : String :=
  let company := pyLower (pyStr lead.company)
  let employees := lead.employees
  if truthy employees then
    match pyIntL (codeStripL (pyStr employees).data) with
    | some emp_count =>
      if emp_count < 50 then "High-Growth Startup"
      else if emp_count < 500 then "Mid-Market"
      else "Enterprise"
    | none => keywordDna company
  else keywordDna company

/-- Tier-1 title keywords of src/app.py line 85. -/
def p1Levels : List String :=
  ["ceo", "cro", "cmo", "coo", "chief", "vp", "vice president", "head of"]

/-- Tier-2 title keywords of src/app.py line 89. -/
def p2Levels : List String := ["director", "senior", "manager", "lead"]

/-- Embedding of assign_priority (src/app.py lines 80 to 93). -/
def assign_priority (lead : CanonicalLead) : String :=
  let title := pyLower (pyStr lead.title)
  if p1Levels.any (fun w => hasSubstr title w) then "P1 - Hot"
  else if p2Levels.any (fun w => hasSubstr title w) then "P2 - Warm"
  else "P3 - Nurture"

/-! ## Script synthesizer -/

/-- A single apostrophe, used inside the template texts. -/
def apos : String := String.singleton (Char.ofNat 39)

/-- An archetype profile from COMPANY_DNA_PROFILES (src/app.py lines 20
to 41). -/
structure DnaProfile where
  pain_points : List String
  values : List String
  tone : String
deriving DecidableEq

/-- The High-Growth Startup profile. -/
def hgsProfile : DnaProfile :=
  { pain_points := ["scaling quickly", "resource constraints", "proving product-market fit"]
    values := ["speed", "innovation", "disruption"]
    tone := "energetic and bold" }

/-- The Enterprise profile. -/
def entProfile : DnaProfile :=
  { pain_points := ["legacy systems", "cross-team alignment", "compliance requirements"]
    values := ["stability", "proven solutions", "risk mitigation"]
    tone := "professional and strategic" }

/-- The Mid-Market profile. -/
def mmProfile : DnaProfile :=
  { pain_points := ["growing pains", "process optimization", "competitive pressure"]
    values := ["efficiency", "growth", "partnership"]
    tone := "balanced and consultative" }

/-- The Agency/Consultancy profile. -/
def acProfile : DnaProfile :=
  { pain_points := ["client delivery", "billable utilization", "differentiation"]
    values := ["expertise", "client success", "innovation"]
    tone := "collaborative and expert" }

/-- Lookup in one of the four-key dict literals of the synthesizer: all
of them are keyed by exactly the four archetype names, so .get is
modelled once, parameterised by the four entries.  A non-string key is
never equal to a string key, giving None. -/
def dnaSelect {α : Type} (dna : Value) (hgs ent mm ac : α) : Option α :=
  match dna with
  | .str s =>
    if s = "High-Growth Startup" then some hgs
    else if s = "Enterprise" then some ent
    else if s = "Mid-Market" then some mm
    else if s = "Agency/Consultancy" then some ac
    else none
  | _ => none

/-- COMPANY_DNA_PROFILES.get(company_dna, COMPANY_DNA_PROFILES["Mid-Market"])
from src/app.py line 131. -/
def profileFor (dna : Value) : DnaProfile :=
  (dnaSelect dna hgsProfile entProfile mmProfile acProfile).getD mmProfile

/-- Subject list for High-Growth Startup (src/app.py lines 101 to 105). -/
def hgsSubjects (fn co vp : String) : List String :=
  [fn ++ " - scaling " ++ co ++ apos ++ "s revenue engine?",
   "Quick win for " ++ co ++ apos ++ "s growth",
   fn ++ ", " ++ co ++ " + " ++ vp ++ "?"]

/-- Subject list for Enterprise (src/app.py lines 106 to 110). -/
def entSubjects (fn co vp : String) : List String :=
  ["Strategic alignment: " ++ co ++ " revenue operations",
   fn ++ " - optimizing " ++ co ++ apos ++ "s GTM execution",
   "Enterprise " ++ vp ++ " for " ++ co]

/-- Subject list for Mid-Market (src/app.py lines 111 to 115). -/
def mmSubjects (fn co vp : String) : List String :=
  [fn ++ " - " ++ co ++ apos ++ "s next growth lever",
   "Helping " ++ co ++ " scale smarter",
   fn ++ ", quick question about " ++ co]

/-- Subject list for Agency/Consultancy (src/app.py lines 116 to 120). -/
def acSubjects (fn co vp : String) : List String :=
  ["Partnership opportunity: " ++ co,
   fn ++ " - elevating " ++ co ++ apos ++ "s client outcomes",
   "For " ++ co ++ ": " ++ vp]

/-- Embedding of generate_email_subject (src/app.py lines 95 to 123):
select the subject list by archetype with Mid-Market fallback and take
its first element.  The first_name and company defaults of lines 97 and
98 are dead at the call site because the canonical lead always carries
both keys. -/
def generate_email_subject (lead : CanonicalLead) (dna : Value) (vp : String) : String :=
  let fn := pyStr lead.first_name
  let co := pyStr lead.company
  ((dnaSelect dna (hgsSubjects fn co vp) (entSubjects fn co vp)
      (mmSubjects fn co vp) (acSubjects fn co vp)).getD (mmSubjects fn co vp)).headD ""

/-- Email body for High-Growth Startup (src/app.py lines 135 to 144). -/
def hgsBody (fn co pain vp sn : String) : String :=
  "Hi " ++ fn ++ ",\n\nSaw " ++ co ++
  " is making moves — congrats on the momentum.\n\nI" ++ apos ++
  "ve been helping fast-growing teams like yours solve " ++ pain ++ " through " ++ vp ++
  ". The results: faster pipeline, cleaner data, and sales teams that actually trust their CRM.\n\nWould a 15-minute call this week make sense? Happy to share a quick framework that" ++
  apos ++ "s worked for similar companies.\n\nBest,\n" ++ sn

/-- Email body for Enterprise (src/app.py lines 146 to 155). -/
def entBody (fn co pain vp sn : String) : String :=
  "Hi " ++ fn ++ ",\n\nI" ++ apos ++ "ve been following " ++ co ++ apos ++
  "s trajectory and wanted to reach out with a relevant observation.\n\nMany enterprise revenue leaders I work with are navigating " ++
  pain ++ " while trying to drive predictable growth. I specialize in " ++ vp ++
  " — helping teams like yours turn operational complexity into competitive advantage.\n\nWould you be open to a brief conversation to explore alignment?\n\nBest regards,\n" ++ sn

/-- Email body for Mid-Market (src/app.py lines 157 to 166). -/
def mmBody (fn co pain vp sn : String) : String :=
  "Hi " ++ fn ++ ",\n\nQuick note — I work with mid-market companies like " ++ co ++
  " on " ++ vp ++ ".\n\nThe common challenge I see: " ++ pain ++
  ". The solution doesn" ++ apos ++ "t have to be complex.\n\nIf this resonates, I" ++ apos ++
  "d love to share a framework that" ++ apos ++
  "s helped similar teams. 15 minutes — no pitch, just value.\n\nBest,\n" ++ sn

/-- Email body for Agency/Consultancy (src/app.py lines 168 to 177). -/
def acBody (fn co pain vp sn : String) : String :=
  "Hi " ++ fn ++ ",\n\nI came across " ++ co ++
  " and was impressed by your work.\n\nI partner with agencies and consultancies on " ++ vp ++
  " — specifically helping with " ++ pain ++ ". It" ++ apos ++
  "s often the difference between good delivery and exceptional client outcomes.\n\nWould you be open to a quick conversation about how we might collaborate?\n\nBest,\n" ++ sn

/-- Embedding of generate_email_body (src/app.py lines 125 to 180): the
pain point comes from the profile selected with Mid-Market fallback and
the template is selected the same way.  The title variable of line 129
is computed in the source but interpolated nowhere. -/
def generate_email_body (lead : CanonicalLead) (dna : Value) (vp sn : String) : String :=
  let fn := pyStr lead.first_name
  let co := pyStr lead.company
  let pain := (profileFor dna).pain_points.headD ""
  (dnaSelect dna (hgsBody fn co pain vp sn) (entBody fn co pain vp sn)
      (mmBody fn co pain vp sn) (acBody fn co pain vp sn)).getD (mmBody fn co pain vp sn)

/-- LinkedIn message for High-Growth Startup (src/app.py line 188). -/
def hgsLinkedin (fn co vp : String) : String :=
  "Hi " ++ fn ++ " — impressed by " ++ co ++ apos ++ "s growth. I work on " ++ vp ++
  " for scaling teams. Would love to connect and share ideas."

/-- LinkedIn message for Enterprise (src/app.py line 189). -/
def entLinkedin (fn co vp : String) : String :=
  "Hi " ++ fn ++ " — I help enterprise revenue teams with " ++ vp ++
  ". Your work at " ++ co ++ " caught my attention. Let" ++ apos ++ "s connect."

/-- LinkedIn message for Mid-Market (src/app.py line 190). -/
def mmLinkedin (fn co vp : String) : String :=
  "Hi " ++ fn ++ " — " ++ co ++ " looks like a great fit for some ideas I have on " ++ vp ++
  ". Would love to connect."

/-- LinkedIn message for Agency/Consultancy (src/app.py line 191). -/
def acLinkedin (fn co vp : String) : String :=
  "Hi " ++ fn ++ " — I partner with agencies on " ++ vp ++ ". " ++ co ++ apos ++
  "s approach resonates. Let" ++ apos ++ "s connect?"

/-- The message selected by archetype, before the length check
(src/app.py lines 182 to 194). -/
def linkedinRender (lead : CanonicalLead) (dna : Value) (vp : String) : String :=
  let fn := pyStr lead.first_name
  let co := pyStr lead.company
  (dnaSelect dna (hgsLinkedin fn co vp) (entLinkedin fn co vp)
      (mmLinkedin fn co vp) (acLinkedin fn co vp)).getD (mmLinkedin fn co vp)

/-- Python string slicing s[:n], counted in code points. -/
def pySliceTo (s : String) (n : Nat) : String := String.mk (s.data.take n)

/-- Embedding of generate_linkedin_message (src/app.py lines 182 to
195): `msg[:295] + "..." if len(msg) > 300 else msg`. -/
def generate_linkedin_message (lead : CanonicalLead) (dna : Value) (vp : String) : String :=
  let msg := linkedinRender lead dna vp
  if 300 < msg.length then pySliceTo msg 295 ++ "..." else msg

/-! ## Batch runner -/

/-- One output row of process_leads (src/app.py lines 221 to 233). -/
structure ResultRow where
  first_name : Value
  last_name : Value
  company : Value
  title : Value
  email : Value
  linkedin : Value
  priority : String
  company_dna : Value
  email_subject : String
  email_body : String
  linkedin_message : String
deriving DecidableEq

/-- The archetype choice of src/app.py line 217: detect when auto-detect
is on, otherwise the per-row company_dna value with Mid-Market
default. -/
def chooseDna (d : Dict) (ad : Bool) (lead : CanonicalLead) : Value :=
  if ad then .str (detect_company_dna lead)
  else pyDictGetD d "company_dna" (.str "Mid-Market")

/-- The result dictionary of src/app.py lines 216 to 233, built once
the canonical lead exists. -/
def buildRow (d : Dict) (ad : Bool) (vp sn : String) (lead : CanonicalLead) : ResultRow :=
  let dna := chooseDna d ad lead
  { first_name := lead.first_name
    last_name := lead.last_name
    company := lead.company
    title := lead.title
    email := lead.email
    linkedin := lead.linkedin
    priority := assign_priority lead
    company_dna := dna
    email_subject := generate_email_subject lead dna vp
    email_body := generate_email_body lead dna vp sn
    linkedin_message := generate_linkedin_message lead dna vp }

/-- Processing of a single row inside the loop of process_leads
(src/app.py lines 201 to 234): an exception from the normaliser
propagates, otherwise the result row is built. -/
def processRow (r : RawRecord) (vp sn : String) (ad : Bool) : Except PyErr ResultRow :=
  match leadFrom (normRowDict r) with
  | .error e => .error e
  | .ok lead => .ok (buildRow (normRowDict r) ad vp sn lead)

/-- The accumulating loop of process_leads (src/app.py lines 199 to
234): results are appended in input order; an uncaught exception from a
row aborts the loop and propagates. -/
def processLoop (vp sn : String) (ad : Bool) :
    List RawRecord → List ResultRow → Except PyErr (List ResultRow)
  | [], acc => .ok acc
  | r :: rs, acc =>
    match processRow r vp sn ad with
    | .error e => .error e
    | .ok x => processLoop vp sn ad rs (acc ++ [x])

/-- Embedding of process_leads (src/app.py lines 197 to 236). -/
def process_leads (df : List RawRecord) (vp sn : String) (ad : Bool) :
    Except PyErr (List ResultRow) :=
  processLoop vp sn ad df []

/-! ## Proof-side helper definitions -/

/-- Whether an exceptional computation succeeded. -/
def exOk {ε α : Type} : Except ε α → Bool
  | .ok _ => true
  | .error _ => false

/-- Structural recursion characterising the accumulator loop of
`process_leads`: process the rows one by one, stopping at the first
exception. -/
def exceptMapRows (f : RawRecord → Except PyErr ResultRow) :
    List RawRecord → Except PyErr (List ResultRow)
  | [] => .ok []
  | r :: rs =>
    match f r with
    | .error e => .error e
    | .ok x => (exceptMapRows f rs).map (fun l => x :: l)

/-! ## Character-class lemmas -/

/-- A digit or underscore character is not a plus, not a minus, and not
whitespace. -/
theorem clean_char {c : Char} (h : (c.isDigit || c = '_') = true) :
    c ≠ '+' ∧ c ≠ '-' ∧ isPySpace c = false := by
  simp only [Bool.or_eq_true, decide_eq_true_eq] at h
  rcases h with hd | hu
  · refine ⟨?_, ?_, ?_⟩
    · intro hc; subst hc; exact absurd hd (by decide)
    · intro hc; subst hc; exact absurd hd (by decide)
    · by_contra hs
      rw [Bool.not_eq_false] at hs
      simp only [isPySpace, Bool.or_eq_true, decide_eq_true_eq] at hs
      rcases hs with ((((h1 | h1) | h1) | h1) | h1) | h1 <;> (subst h1; exact absurd hd (by decide))
  · subst hu; exact ⟨by decide, by decide, by decide⟩

/-- A whitespace character is not a plus sign. -/
theorem space_ne_plus {c : Char} (h : isPySpace c = true) : c ≠ '+' := by
  intro hc; subst hc; exact absurd h (by decide)

/-- Every character of a valid digit continuation is a digit or an
underscore. -/
theorem digitsRest_chars (l : List Char) : ∀ (u : Bool), digitsRest u l = true →
    ∀ c ∈ l, (c.isDigit || c = '_') = true := by
  induction l with
  | nil => intro u _ c hc; cases hc
  | cons a r ih =>
    intro u h c hc
    simp only [digitsRest] at h
    by_cases ha : a = '_'
    · rw [if_pos ha] at h
      rcases List.mem_cons.mp hc with rfl | hm
      · simp [ha]
      · exact ih true (Bool.and_eq_true_iff.mp h).2 c hm
    · rw [if_neg ha] at h
      obtain ⟨h1, h2⟩ := Bool.and_eq_true_iff.mp h
      rcases List.mem_cons.mp hc with rfl | hm
      · simp [h1]
      · exact ih false h2 c hm

/-- Every character of a valid digit string is a digit or an
underscore. -/
theorem digitsOk_chars {l : List Char} (h : digitsOk l = true) :
    ∀ c ∈ l, (c.isDigit || c = '_') = true := by
  cases l with
  | nil => exact absurd h (by decide)
  | cons a r =>
    simp only [digitsOk, Bool.and_eq_true] at h
    intro c hc
    rcases List.mem_cons.mp hc with rfl | hm
    · simp [h.1]
    · exact digitsRest_chars r false h.2 c hm

/-- A valid digit string starts with a digit. -/
theorem digitsOk_head {a : Char} {r : List Char} (h : digitsOk (a :: r) = true) :
    a.isDigit = true := by
  simp only [digitsOk, Bool.and_eq_true] at h
  exact h.1

/-- Removing plus signs leaves a valid digit string unchanged. -/
theorem digits_removePlus {l : List Char} (h : digitsOk l = true) :
    removeAllChar '+' l = l := by
  apply List.filter_eq_self.mpr
  intro c hc
  exact decide_eq_true (clean_char (digitsOk_chars h c hc)).1

/-- A valid digit string contains no whitespace. -/
theorem digits_no_space {l : List Char} (h : digitsOk l = true) :
    ∀ c ∈ l, isPySpace c = false :=
  fun c hc => (clean_char (digitsOk_chars h c hc)).2.2

/-! ## Whitespace trimming lemmas -/

/-- dropWhile leaves a list with no satisfying characters unchanged. -/
theorem dropWhile_eq_self_of {p : Char → Bool} {l : List Char}
    (h : ∀ c ∈ l, p c = false) : l.dropWhile p = l := by
  cases l with
  | nil => rfl
  | cons a r =>
    apply List.dropWhile_cons_of_neg
    simp [h a (List.mem_cons_self a r)]

/-- Trimming leaves a list with no whitespace unchanged. -/
theorem trimWs_eq_self {l : List Char} (h : ∀ c ∈ l, isPySpace c = false) :
    trimWs l = l := by
  unfold trimWs dropTrailWs
  rw [dropWhile_eq_self_of h,
    dropWhile_eq_self_of (fun c hc => h c (List.mem_reverse.mp hc)),
    List.reverse_reverse]

/-- If dropWhile gives the empty list, every character satisfied the
predicate. -/
theorem dropWhile_nil_all {p : Char → Bool} : ∀ {l : List Char},
    l.dropWhile p = [] → ∀ c ∈ l, p c = true := by
  intro l
  induction l with
  | nil => intro _ c hc; cases hc
  | cons a r ih =>
    intro h c hc
    by_cases hp : p a = true
    · rw [List.dropWhile_cons_of_pos hp] at h
      rcases List.mem_cons.mp hc with rfl | hm
      · exact hp
      · exact ih h c hm
    · rw [List.dropWhile_cons_of_neg (by simp [hp])] at h
      cases h

/-- dropWhile of a list whose characters all satisfy the predicate. -/
theorem dropWhile_all_nil {p : Char → Bool} {l : List Char}
    (h : ∀ c ∈ l, p c = true) : l.dropWhile p = [] := by
  have := @List.dropWhile_append_of_pos _ p l [] h
  simpa using this

/-- dropWhile over an append whose left part does not vanish. -/
theorem dropWhile_app_of_ne {p : Char → Bool} : ∀ {x : List Char} (b : List Char),
    x.dropWhile p ≠ [] → (x ++ b).dropWhile p = x.dropWhile p ++ b := by
  intro x
  induction x with
  | nil => intro b h; exact absurd rfl h
  | cons a r ih =>
    intro b h
    by_cases hp : p a = true
    · rw [List.dropWhile_cons_of_pos hp] at h
      rw [List.cons_append, List.dropWhile_cons_of_pos hp,
        List.dropWhile_cons_of_pos hp, ih b h]
    · rw [List.cons_append, List.dropWhile_cons_of_neg (by simp [hp]),
        List.dropWhile_cons_of_neg (by simp [hp]), List.cons_append]

/-- Dropping trailing whitespace ignores an all-whitespace suffix. -/
theorem dropTrailWs_app_sp {x b : List Char} (hb : ∀ c ∈ b, isPySpace c = true) :
    dropTrailWs (x ++ b) = dropTrailWs x := by
  unfold dropTrailWs
  rw [List.reverse_append,
    @List.dropWhile_append_of_pos _ isPySpace b.reverse x.reverse
      (fun c hc => hb c (List.mem_reverse.mp hc))]

/-- Trimming ignores all-whitespace padding on both sides. -/
theorem trimWs_pad (a b x : List Char) (ha : ∀ c ∈ a, isPySpace c = true)
    (hb : ∀ c ∈ b, isPySpace c = true) : trimWs (a ++ x ++ b) = trimWs x := by
  unfold trimWs
  rw [List.append_assoc, @List.dropWhile_append_of_pos _ isPySpace a (x ++ b) ha]
  by_cases hx : x.dropWhile isPySpace = []
  · have hxall : ∀ c ∈ x, isPySpace c = true := dropWhile_nil_all hx
    have hall : ∀ c ∈ x ++ b, isPySpace c = true := by
      intro c hc
      rcases List.mem_append.mp hc with hm | hm
      · exact hxall c hm
      · exact hb c hm
    rw [hx, dropWhile_all_nil hall]
  · rw [dropWhile_app_of_ne b hx, dropTrailWs_app_sp hb]

/-- Decomposition of a list into leading whitespace, the trimmed core,
and trailing whitespace. -/
theorem trim_decomp (t : List Char) :
    ∃ a b, t = a ++ trimWs t ++ b ∧ (∀ c ∈ a, isPySpace c = true) ∧
      (∀ c ∈ b, isPySpace c = true) := by
  refine ⟨t.takeWhile isPySpace,
    (((t.dropWhile isPySpace).reverse.takeWhile isPySpace).reverse), ?_, ?_, ?_⟩
  · have hm : t.dropWhile isPySpace =
        trimWs t ++ ((t.dropWhile isPySpace).reverse.takeWhile isPySpace).reverse := by
      unfold trimWs dropTrailWs
      conv_lhs => rw [← List.reverse_reverse (t.dropWhile isPySpace)]
      conv_lhs =>
        rw [← List.takeWhile_append_dropWhile isPySpace (t.dropWhile isPySpace).reverse]
      rw [List.reverse_append]
    conv_lhs => rw [← List.takeWhile_append_dropWhile isPySpace t]
    rw [List.append_assoc, ← hm]
  · exact fun c hc => List.mem_takeWhile_imp hc
  · exact fun c hc => List.mem_takeWhile_imp (List.mem_reverse.mp hc)

/-! ## Relating the two plus-stripping conventions -/

/-- Removing all plus characters after first dropping leading plus
characters is the same as removing them directly. -/
theorem removePlus_dropPlus : ∀ l : List Char,
    removeAllChar '+' (l.dropWhile (fun c => c = '+')) = removeAllChar '+' l := by
  intro l
  induction l with
  | nil => rfl
  | cons a r ih =>
    by_cases ha : a = '+'
    · subst ha
      rw [List.dropWhile_cons_of_pos (by simp), ih]
      unfold removeAllChar
      rw [List.filter_cons_of_neg (by simp)]
    · rw [List.dropWhile_cons_of_neg (by simp [ha])]

/-- Removing all plus characters does not see the trailing plus strip. -/
theorem removePlus_stripTrailing (l : List Char) :
    removeAllChar '+' (stripTrailingPlus l) = removeAllChar '+' l := by
  unfold stripTrailingPlus removeAllChar
  rw [List.filter_reverse]
  have h := removePlus_dropPlus l.reverse
  unfold removeAllChar at h
  rw [h, List.filter_reverse, List.reverse_reverse]

/-- Unfolding equation for `parseSigned` on a non-empty list. -/
theorem parseSigned_cons (c : Char) (r : List Char) :
    parseSigned (c :: r) =
      if c = '+' then (digitsVal r).map Int.ofNat
      else if c = '-' then (digitsVal r).map (fun m => -(Int.ofNat m))
      else (digitsVal (c :: r)).map Int.ofNat := rfl

/-- If a list parses as an integer, so does the list with every plus
character removed, to the same value. -/
theorem pyIntL_removePlus {t : List Char} {n : Int} (h : pyIntL t = some n) :
    pyIntL (removeAllChar '+' t) = some n := by
  obtain ⟨a, b, ht, ha, hb⟩ := trim_decomp t
  have hpu : parseSigned (trimWs t) = some n := h
  have hsplit : removeAllChar '+' t = a ++ removeAllChar '+' (trimWs t) ++ b := by
    conv_lhs => rw [ht]
    unfold removeAllChar
    rw [List.filter_append, List.filter_append,
      List.filter_eq_self.mpr (fun c hc => decide_eq_true (space_ne_plus (ha c hc))),
      List.filter_eq_self.mpr (fun c hc => decide_eq_true (space_ne_plus (hb c hc)))]
  have htrim : trimWs (removeAllChar '+' t) = trimWs (removeAllChar '+' (trimWs t)) := by
    rw [hsplit]; exact trimWs_pad a b _ ha hb
  show parseSigned (trimWs (removeAllChar '+' t)) = some n
  rw [htrim]
  rcases hu : trimWs t with _ | ⟨c, r⟩
  · rw [hu] at hpu; exact absurd hpu (by simp [parseSigned])
  · rw [hu] at hpu
    rw [parseSigned_cons] at hpu
    by_cases hc1 : c = '+'
    · subst hc1
      rw [if_pos rfl] at hpu
      obtain ⟨m, hm, hn⟩ := Option.map_eq_some'.mp hpu
      have hok : digitsOk r = true := by
        by_contra hbad
        rw [digitsVal, if_neg hbad] at hm
        cases hm
      have hr1 : removeAllChar '+' ('+' :: r) = r := by
        unfold removeAllChar
        rw [List.filter_cons_of_neg (by simp)]
        exact digits_removePlus hok
      rw [hr1, trimWs_eq_self (digits_no_space hok)]
      rcases r with _ | ⟨c2, r2⟩
      · exact absurd hok (by decide)
      · have hd2 := digitsOk_head hok
        rw [parseSigned_cons,
          if_neg (clean_char (by simp [hd2])).1, if_neg (clean_char (by simp [hd2])).2.1,
          hm]
        simpa using hn
    · by_cases hc2 : c = '-'
      · subst hc2
        rw [if_neg (by decide), if_pos rfl] at hpu
        obtain ⟨m, hm, hn⟩ := Option.map_eq_some'.mp hpu
        have hok : digitsOk r = true := by
          by_contra hbad
          rw [digitsVal, if_neg hbad] at hm
          cases hm
        have hr1 : removeAllChar '+' ('-' :: r) = '-' :: r := by
          unfold removeAllChar
          rw [List.filter_cons_of_pos (by decide)]
          have := digits_removePlus hok
          unfold removeAllChar at this
          rw [this]
        rw [hr1, trimWs_eq_self ?hns]
        case hns =>
          intro x hx
          rcases List.mem_cons.mp hx with rfl | hm2
          · decide
          · exact digits_no_space hok x hm2
        rw [parseSigned_cons, if_neg (by decide), if_pos rfl, hm]
        simpa using hn
      · rw [if_neg hc1, if_neg hc2] at hpu
        obtain ⟨m, hm, hn⟩ := Option.map_eq_some'.mp hpu
        have hok : digitsOk (c :: r) = true := by
          by_contra hbad
          rw [digitsVal, if_neg hbad] at hm
          cases hm
        rw [digits_removePlus hok, trimWs_eq_self (digits_no_space hok)]
        rw [parseSigned_cons, if_neg hc1, if_neg hc2, hm]
        simpa using hn

/-- If the parse described by the claim (strip commas and trailing plus
signs) succeeds, the parse the source performs (remove every comma and
every plus) succeeds with the same value. -/
theorem codeParse_of_specParse {s : String} {n : Int} (h : specParse s = some n) :
    pyIntL (codeStripL s.data) = some n := by
  unfold specParse at h
  unfold codeStripL
  rw [← removePlus_stripTrailing]
  exact pyIntL_removePlus h

/-! ## Archetype detection -/

/-- Unfolding equation for `detect_company_dna`. -/
theorem detect_unfold (lead : CanonicalLead) :
    detect_company_dna lead =
      if truthy lead.employees then
        match pyIntL (codeStripL (pyStr lead.employees).data) with
        | some emp_count =>
          if emp_count < 50 then "High-Growth Startup"
          else if emp_count < 500 then "Mid-Market"
          else "Enterprise"
        | none => keywordDna (pyLower (pyStr lead.company))
      else keywordDna (pyLower (pyStr lead.company)) := rfl

/-- When employees is falsy or fails to parse, detection is by company
keywords. -/
theorem detect_eq_keyword {lead : CanonicalLead}
    (h : truthy lead.employees = false ∨
      pyIntL (codeStripL (pyStr lead.employees).data) = none) :
    detect_company_dna lead = keywordDna (pyLower (pyStr lead.company)) := by
  rw [detect_unfold]
  rcases h with h | h
  · simp [h]
  · by_cases ht : truthy lead.employees
    · simp [ht, h]
    · simp [ht]

/-- The keyword detector never returns the startup archetype. -/
theorem keywordDna_ne_startup (co : String) :
    keywordDna co ≠ "High-Growth Startup" := by
  unfold keywordDna
  split
  · decide
  · split
    · decide
    · decide

/-- C2: for every canonical lead whose employees string parses as an
integer n after stripping commas and trailing plus signs, the
auto-detect archetype is determined by size alone: below 50 the startup
archetype, from 50 below 500 the mid-market archetype, and from 500 the
enterprise archetype, regardless of company keywords. -/
theorem size_rule_determines_archetype (lead : CanonicalLead) (s : String) (n : Int)
    (hemp : lead.employees = Value.str s) (hp : specParse s = some n) :
    detect_company_dna lead =
      if n < 50 then "High-Growth Startup"
      else if n < 500 then "Mid-Market" else "Enterprise" := by
  have hs : s ≠ "" := by
    rintro rfl
    rw [show specParse "" = (none : Option Int) from rfl] at hp
    cases hp
  have hcode : pyIntL (codeStripL s.data) = some n := codeParse_of_specParse hp
  rw [detect_unfold, hemp]
  have htr : truthy (Value.str s) = true := by simp [truthy, hs]
  rw [htr, if_pos rfl, show pyStr (Value.str s) = s from rfl, hcode]

/-- Witness for C2: employees 800 with a company containing the inc
keyword is still classified Enterprise by the size rule. -/
theorem size_rule_determines_archetype_witness :
    detect_company_dna
      { first_name := Value.str "Jane", last_name := Value.str "Doe",
        company := Value.str "Acme Inc", title := Value.str "VP of Sales",
        email := Value.str "", linkedin := Value.str "",
        employees := Value.str "800" } = "Enterprise" := by
  have h := size_rule_determines_archetype
    { first_name := Value.str "Jane", last_name := Value.str "Doe",
      company := Value.str "Acme Inc", title := Value.str "VP of Sales",
      email := Value.str "", linkedin := Value.str "",
      employees := Value.str "800" } "800" 800 rfl (by decide)
  rw [if_neg (by norm_num), if_neg (by norm_num)] at h
  exact h

/-- C3: for every canonical lead with no usable employees value, the
archetype comes from case-insensitive keyword matching of the company
name, the agency keyword set first, then the enterprise keyword set,
defaulting to Mid-Market. -/
theorem keyword_rule_when_no_size (lead : CanonicalLead)
    (h : truthy lead.employees = false ∨
      pyIntL (codeStripL (pyStr lead.employees).data) = none) :
    detect_company_dna lead = keywordDna (pyLower (pyStr lead.company)) ∧
    (agencyWords.any (fun w => hasSubstr (pyLower (pyStr lead.company)) w) = true →
      detect_company_dna lead = "Agency/Consultancy") ∧
    (agencyWords.any (fun w => hasSubstr (pyLower (pyStr lead.company)) w) = false →
      enterpriseWords.any (fun w => hasSubstr (pyLower (pyStr lead.company)) w) = true →
      detect_company_dna lead = "Enterprise") ∧
    (agencyWords.any (fun w => hasSubstr (pyLower (pyStr lead.company)) w) = false →
      enterpriseWords.any (fun w => hasSubstr (pyLower (pyStr lead.company)) w) = false →
      detect_company_dna lead = "Mid-Market") := by
  have hk := detect_eq_keyword h
  refine ⟨hk, ?_, ?_, ?_⟩
  · intro h1
    rw [hk]; unfold keywordDna; rw [if_pos h1]
  · intro h1 h2
    rw [hk]; unfold keywordDna; rw [if_neg (by simp [h1]), if_pos h2]
  · intro h1 h2
    rw [hk]; unfold keywordDna; rw [if_neg (by simp [h1]), if_neg (by simp [h2])]

/-- Witness for C3: employees unset and company Acme Partners gives the
agency archetype. -/
theorem keyword_rule_when_no_size_witness :
    detect_company_dna
      { first_name := Value.str "A", last_name := Value.str "",
        company := Value.str "Acme Partners", title := Value.str "",
        email := Value.str "", linkedin := Value.str "",
        employees := Value.str "" } = "Agency/Consultancy" :=
  (keyword_rule_when_no_size
    { first_name := Value.str "A", last_name := Value.str "",
      company := Value.str "Acme Partners", title := Value.str "",
      email := Value.str "", linkedin := Value.str "",
      employees := Value.str "" } (Or.inl (by decide))).2.1 (by decide)

/-- C9: the employees clean-up removes every comma and every plus sign
at any position before integer conversion, so employees +500 is parsed
by the size rule (to 500, hence Enterprise) instead of falling through
to keyword matching. -/
theorem strip_removes_all_pluses :
    (∀ s : String, codeStripL s.data =
      s.data.filter (fun c => c ≠ ',' && c ≠ '+')) ∧
    (∀ lead : CanonicalLead, lead.employees = Value.str "+500" →
      detect_company_dna lead = "Enterprise") := by
  constructor
  · intro s
    unfold codeStripL removeAllChar
    rw [List.filter_filter]
    apply List.filter_congr
    intro c _
    by_cases h1 : c = ','
    · simp [h1]
    · by_cases h2 : c = '+' <;> simp [h1, h2]
  · intro lead h
    rw [detect_unfold, h, show truthy (Value.str "+500") = true from rfl, if_pos rfl,
      show pyStr (Value.str "+500") = "+500" from rfl,
      show pyIntL (codeStripL ("+500" : String).data) = some 500 from rfl]
    norm_num

/-- Witness for C9: a lead with employees +500 and an agency-keyword
company is still classified Enterprise. -/
theorem strip_removes_all_pluses_witness :
    detect_company_dna
      { first_name := Value.str "B", last_name := Value.str "",
        company := Value.str "Acme Partners", title := Value.str "",
        email := Value.str "", linkedin := Value.str "",
        employees := Value.str "+500" } = "Enterprise" :=
  strip_removes_all_pluses.2
    { first_name := Value.str "B", last_name := Value.str "",
      company := Value.str "Acme Partners", title := Value.str "",
      email := Value.str "", linkedin := Value.str "",
      employees := Value.str "+500" } rfl

/-- C10: the size rule runs only on a truthy employees value: the empty
string and the integer 0 skip it entirely and fall to keyword matching
with its Mid-Market default, so an integer 0 is never classified as a
startup, while the string 0 is. -/
theorem size_rule_needs_truthy :
    (∀ lead : CanonicalLead,
      lead.employees = Value.str "" ∨ lead.employees = Value.int 0 →
      detect_company_dna lead = keywordDna (pyLower (pyStr lead.company))) ∧
    (∀ lead : CanonicalLead, lead.employees = Value.int 0 →
      detect_company_dna lead ≠ "High-Growth Startup") ∧
    (∀ lead : CanonicalLead, lead.employees = Value.str "0" →
      detect_company_dna lead = "High-Growth Startup") := by
  refine ⟨?_, ?_, ?_⟩
  · intro lead h
    apply detect_eq_keyword
    rcases h with h | h <;> rw [h] <;> exact Or.inl (by decide)
  · intro lead h
    rw [detect_eq_keyword (Or.inl (by rw [h]; decide))]
    exact keywordDna_ne_startup _
  · intro lead h
    rw [detect_unfold, h, show truthy (Value.str "0") = true from rfl, if_pos rfl,
      show pyStr (Value.str "0") = "0" from rfl,
      show pyIntL (codeStripL ("0" : String).data) = some 0 from rfl]
    norm_num

/-- Witness for C10: a lead with integer employees 0 and a neutral
company is classified Mid-Market, not High-Growth Startup, while the
same lead with the string 0 is a startup. -/
theorem size_rule_needs_truthy_witness :
    detect_company_dna
      { first_name := Value.str "C", last_name := Value.str "",
        company := Value.str "Plainco", title := Value.str "",
        email := Value.str "", linkedin := Value.str "",
        employees := Value.int 0 } ≠ "High-Growth Startup" ∧
    detect_company_dna
      { first_name := Value.str "C", last_name := Value.str "",
        company := Value.str "Plainco", title := Value.str "",
        email := Value.str "", linkedin := Value.str "",
        employees := Value.str "0" } = "High-Growth Startup" :=
  ⟨size_rule_needs_truthy.2.1
    { first_name := Value.str "C", last_name := Value.str "",
      company := Value.str "Plainco", title := Value.str "",
      email := Value.str "", linkedin := Value.str "",
      employees := Value.int 0 } rfl,
   size_rule_needs_truthy.2.2
    { first_name := Value.str "C", last_name := Value.str "",
      company := Value.str "Plainco", title := Value.str "",
      email := Value.str "", linkedin := Value.str "",
      employees := Value.str "0" } rfl⟩

/-! ## Priority detection -/

/-- C4: priority is a case-insensitive substring match of the title
against the tier keyword lists in fixed order: any tier-1 keyword gives
P1 - Hot regardless of tier-2 keywords, and a title matching no keyword
of either list gives P3 - Nurture. -/
theorem priority_tier_order :
    (∀ lead : CanonicalLead,
      (∃ w ∈ p1Levels, hasSubstr (pyLower (pyStr lead.title)) w = true) →
      assign_priority lead = "P1 - Hot") ∧
    (∀ lead : CanonicalLead,
      (∀ w ∈ p1Levels, hasSubstr (pyLower (pyStr lead.title)) w = false) →
      (∀ w ∈ p2Levels, hasSubstr (pyLower (pyStr lead.title)) w = false) →
      assign_priority lead = "P3 - Nurture") := by
  constructor
  · intro lead h
    obtain ⟨w, hw, hsub⟩ := h
    unfold assign_priority
    rw [if_pos (List.any_eq_true.mpr ⟨w, hw, hsub⟩)]
  · intro lead h1 h2
    unfold assign_priority
    rw [if_neg ?n1, if_neg ?n2]
    case n1 =>
      rw [List.any_eq_true]
      rintro ⟨w, hw, hsub⟩
      rw [h1 w hw] at hsub
      cases hsub
    case n2 =>
      rw [List.any_eq_true]
      rintro ⟨w, hw, hsub⟩
      rw [h2 w hw] at hsub
      cases hsub

/-- Witness for C4: a title holding both vp and director resolves to
P1 - Hot, and the title Account Executive resolves to P3 - Nurture. -/
theorem priority_tier_order_witness :
    assign_priority
      { first_name := Value.str "D", last_name := Value.str "",
        company := Value.str "", title := Value.str "VP, Director of Sales",
        email := Value.str "", linkedin := Value.str "",
        employees := Value.str "" } = "P1 - Hot" ∧
    assign_priority
      { first_name := Value.str "D", last_name := Value.str "",
        company := Value.str "", title := Value.str "Account Executive",
        email := Value.str "", linkedin := Value.str "",
        employees := Value.str "" } = "P3 - Nurture" :=
  ⟨priority_tier_order.1
    { first_name := Value.str "D", last_name := Value.str "",
      company := Value.str "", title := Value.str "VP, Director of Sales",
      email := Value.str "", linkedin := Value.str "",
      employees := Value.str "" } ⟨"vp", by decide, by decide⟩,
   priority_tier_order.2
    { first_name := Value.str "D", last_name := Value.str "",
      company := Value.str "", title := Value.str "Account Executive",
      email := Value.str "", linkedin := Value.str "",
      employees := Value.str "" } (by decide) (by decide)⟩

/-! ## LinkedIn message length -/

/-- C5: for every archetype value and every combination of lead fields
and value proposition, the LinkedIn message is at most 300 characters:
a render longer than 300 characters is cut to its first 295 characters
plus a three-character ellipsis, and a shorter render is returned
unmodified. -/
theorem linkedin_message_bounded (lead : CanonicalLead) (dna : Value) (vp : String) :
    (generate_linkedin_message lead dna vp).length ≤ 300 ∧
    (300 < (linkedinRender lead dna vp).length →
      generate_linkedin_message lead dna vp =
        pySliceTo (linkedinRender lead dna vp) 295 ++ "...") ∧
    ((linkedinRender lead dna vp).length ≤ 300 →
      generate_linkedin_message lead dna vp = linkedinRender lead dna vp) := by
  unfold generate_linkedin_message
  by_cases h : 300 < (linkedinRender lead dna vp).length
  · rw [if_pos h]
    refine ⟨?_, fun _ => rfl, fun hle => absurd h (by omega)⟩
    rw [String.length_append]
    have h1 : (pySliceTo (linkedinRender lead dna vp) 295).length ≤ 295 := by
      unfold pySliceTo
      rw [String.length_mk, List.length_take]
      omega
    have h2 : ("..." : String).length = 3 := by decide
    omega
  · rw [if_neg h]
    exact ⟨by omega, fun hgt => absurd hgt h, fun _ => rfl⟩

/-- Witness for C5: a concrete Enterprise-archetype message is under
the 300-character bound and returned unmodified. -/
theorem linkedin_message_bounded_witness :
    (generate_linkedin_message
      { first_name := Value.str "Jane", last_name := Value.str "",
        company := Value.str "Acme", title := Value.str "",
        email := Value.str "", linkedin := Value.str "",
        employees := Value.str "" } (Value.str "Enterprise") "growth").length ≤ 300 :=
  (linkedin_message_bounded
    { first_name := Value.str "Jane", last_name := Value.str "",
      company := Value.str "Acme", title := Value.str "",
      email := Value.str "", linkedin := Value.str "",
      employees := Value.str "" } (Value.str "Enterprise") "growth").1

/-! ## Unknown archetype fallback -/

/-- The four-key table lookup misses for any value that is not one of
the four archetype names. -/
theorem dnaSelect_unknown {α : Type} (dna : Value) (hgs ent mm ac : α)
    (h : ∀ s, dna = Value.str s →
      s ≠ "High-Growth Startup" ∧ s ≠ "Enterprise" ∧ s ≠ "Mid-Market" ∧
      s ≠ "Agency/Consultancy") :
    dnaSelect dna hgs ent mm ac = none := by
  cases dna with
  | str s =>
    obtain ⟨h1, h2, h3, h4⟩ := h s rfl
    show (if s = "High-Growth Startup" then some hgs
      else if s = "Enterprise" then some ent
      else if s = "Mid-Market" then some mm
      else if s = "Agency/Consultancy" then some ac
      else none) = none
    rw [if_neg h1, if_neg h2, if_neg h3, if_neg h4]
  | int n => rfl
  | nan => rfl

/-- The four-key table lookup at the Mid-Market key. -/
theorem dnaSelect_mm {α : Type} (hgs ent mm ac : α) :
    dnaSelect (Value.str "Mid-Market") hgs ent mm ac = some mm := by
  show (if ("Mid-Market" : String) = "High-Growth Startup" then some hgs
    else if ("Mid-Market" : String) = "Enterprise" then some ent
    else if ("Mid-Market" : String) = "Mid-Market" then some mm
    else if ("Mid-Market" : String) = "Agency/Consultancy" then some ac
    else none) = some mm
  rw [if_neg (by decide), if_neg (by decide), if_pos rfl]

/-- C6: whenever the archetype key is not one of the four known
archetypes, the synthesizer produces exactly the Mid-Market outputs:
subject, body and connection message equal the Mid-Market renders and
the pain point used is the first Mid-Market pain point; and with
auto-detect disabled a row without a company_dna key gets the literal
Mid-Market archetype. -/
theorem unknown_archetype_mid_market (dna : Value)
    (h : ∀ s, dna = Value.str s →
      s ≠ "High-Growth Startup" ∧ s ≠ "Enterprise" ∧ s ≠ "Mid-Market" ∧
      s ≠ "Agency/Consultancy") :
    (∀ lead vp, generate_email_subject lead dna vp =
      generate_email_subject lead (Value.str "Mid-Market") vp) ∧
    (∀ lead vp sn, generate_email_body lead dna vp sn =
      generate_email_body lead (Value.str "Mid-Market") vp sn) ∧
    (∀ lead vp, generate_linkedin_message lead dna vp =
      generate_linkedin_message lead (Value.str "Mid-Market") vp) ∧
    (profileFor dna).pain_points.headD "" = "growing pains" ∧
    (∀ r : RawRecord, pyDictGet (normRowDict r) "company_dna" = none →
      ∀ lead, chooseDna (normRowDict r) false lead = Value.str "Mid-Market") := by
  have hsel : ∀ (α : Type) (hgs ent mm ac : α),
      dnaSelect dna hgs ent mm ac = none :=
    fun α hgs ent mm ac => dnaSelect_unknown dna hgs ent mm ac h
  have hpf : profileFor dna = mmProfile := by
    unfold profileFor
    rw [hsel]
    rfl
  refine ⟨?_, ?_, ?_, ?_, ?_⟩
  · intro lead vp
    simp only [generate_email_subject, hsel, dnaSelect_mm, Option.getD_none,
      Option.getD_some]
  · intro lead vp sn
    simp only [generate_email_body, hsel, dnaSelect_mm, Option.getD_none,
      Option.getD_some, hpf]
    rfl
  · intro lead vp
    simp only [generate_linkedin_message, linkedinRender, hsel, dnaSelect_mm,
      Option.getD_none, Option.getD_some]
  · rw [hpf]; rfl
  · intro r hr lead
    unfold chooseDna
    rw [if_neg (by simp)]
    unfold pyDictGetD
    rw [hr]
    rfl

/-- Witness for C6: the unrecognized archetype string Bogus produces
the Mid-Market subject. -/
theorem unknown_archetype_mid_market_witness :
    generate_email_subject
      { first_name := Value.str "E", last_name := Value.str "",
        company := Value.str "Acme", title := Value.str "",
        email := Value.str "", linkedin := Value.str "",
        employees := Value.str "" } (Value.str "Bogus") "v" =
    generate_email_subject
      { first_name := Value.str "E", last_name := Value.str "",
        company := Value.str "Acme", title := Value.str "",
        email := Value.str "", linkedin := Value.str "",
        employees := Value.str "" } (Value.str "Mid-Market") "v" :=
  (unknown_archetype_mid_market (Value.str "Bogus")
    (fun s hs => by
      cases hs
      exact ⟨by decide, by decide, by decide, by decide⟩)).1
    { first_name := Value.str "E", last_name := Value.str "",
      company := Value.str "Acme", title := Value.str "",
      email := Value.str "", linkedin := Value.str "",
      employees := Value.str "" } "v"

/-! ## Normalizer failure and batch behaviour -/

/-- C1: the claim that the Normalizer never raises is contradicted by
the code: on a row whose name column holds a single space, the eagerly
evaluated fallback expression takes element zero of an empty split and
raises IndexError. -/
theorem normalizer_raises_on_blank_name :
    normalize_row [("name", Value.str " ")] = Except.error PyErr.indexError := rfl

/-- An exceptional computation that reports success holds a value. -/
theorem exOk_exists {ε α : Type} {e : Except ε α} (h : exOk e = true) :
    ∃ x, e = .ok x := by
  cases e with
  | ok x => exact ⟨x, rfl⟩
  | error er => exact absurd h (by simp [exOk])

/-- A row whose normalisation succeeds is processed to a result row. -/
theorem processRow_ok {r : RawRecord} {vp sn : String} {ad : Bool}
    (h : exOk (normalize_row r) = true) : ∃ x, processRow r vp sn ad = .ok x := by
  obtain ⟨lead, hl⟩ := exOk_exists h
  unfold normalize_row at hl
  unfold processRow
  rw [hl]
  exact ⟨_, rfl⟩

/-- The accumulator loop is the structural row-by-row map. -/
theorem processLoop_eq (vp sn : String) (ad : Bool) :
    ∀ (df : List RawRecord) (acc : List ResultRow),
      processLoop vp sn ad df acc =
        (exceptMapRows (fun r => processRow r vp sn ad) df).map
          (fun l => acc ++ l) := by
  intro df
  induction df with
  | nil => intro acc; simp [processLoop, exceptMapRows, Except.map]
  | cons r rs ih =>
    intro acc
    cases hf : processRow r vp sn ad with
    | error e => simp [processLoop, exceptMapRows, hf, Except.map]
    | ok x =>
      simp only [processLoop, exceptMapRows, hf]
      rw [ih (acc ++ [x])]
      cases hrest : exceptMapRows (fun q => processRow q vp sn ad) rs with
      | error e => rfl
      | ok l => simp [Except.map]

/-- `process_leads` is the structural row-by-row map. -/
theorem process_leads_eq (df : List RawRecord) (vp sn : String) (ad : Bool) :
    process_leads df vp sn ad =
      exceptMapRows (fun r => processRow r vp sn ad) df := by
  unfold process_leads
  rw [processLoop_eq]
  cases h : exceptMapRows (fun r => processRow r vp sn ad) df with
  | error e => rfl
  | ok l => simp [Except.map]

/-- Row-wise success gives a full output list, in order. -/
theorem exceptMapRows_ok (f : RawRecord → Except PyErr ResultRow) :
    ∀ df : List RawRecord, (∀ r ∈ df, exOk (f r) = true) →
    ∃ out : List ResultRow, exceptMapRows f df = .ok out ∧
      out.length = df.length ∧
      ∀ i (hi : i < df.length) (ho : i < out.length),
        Except.ok (out.get ⟨i, ho⟩) = f (df.get ⟨i, hi⟩) := by
  intro df
  induction df with
  | nil =>
    intro _
    exact ⟨[], rfl, rfl, fun i hi _ => absurd hi (Nat.not_lt_zero i)⟩
  | cons r rs ih =>
    intro h
    obtain ⟨x, hx⟩ := exOk_exists (h r (List.mem_cons_self r rs))
    obtain ⟨out, hout, hlen, hget⟩ := ih (fun q hq => h q (List.mem_cons_of_mem r hq))
    refine ⟨x :: out, ?_, ?_, ?_⟩
    · unfold exceptMapRows
      rw [hx, hout]
      rfl
    · simp [hlen]
    · intro i hi ho
      cases i with
      | zero => simpa using hx.symm
      | succ j =>
        have hj : j < rs.length := by simpa using hi
        have hj2 : j < out.length := by simpa using ho
        simpa [List.get_cons_succ] using hget j hj hj2

/-- Counterexample to C7 as stated: a one-row input whose name column
holds a single space makes process_leads raise instead of returning a
one-row table. -/
theorem batch_aborts_on_blank_name_row :
    process_leads [[("name", Value.str " ")]] "v" "s" true =
      Except.error PyErr.indexError := rfl

/-- C7 amended: for every input table all of whose rows normalise
without raising, process_leads returns exactly one result row per input
row, in the same relative order, with no filtering and no
deduplication. -/
theorem batch_preserves_rows (df : List RawRecord) (vp sn : String) (ad : Bool)
    (h : ∀ r ∈ df, exOk (normalize_row r) = true) :
    ∃ out : List ResultRow, process_leads df vp sn ad = Except.ok out ∧
      out.length = df.length ∧
      ∀ i (hi : i < df.length) (ho : i < out.length),
        Except.ok (out.get ⟨i, ho⟩) = processRow (df.get ⟨i, hi⟩) vp sn ad := by
  rw [process_leads_eq]
  apply exceptMapRows_ok
  intro r hr
  obtain ⟨x, hx⟩ := processRow_ok (h r hr)
  rw [hx]
  rfl

/-- Witness for C7: a two-row input with well-formed rows yields a
two-row output. -/
theorem batch_preserves_rows_witness :
    ∃ out : List ResultRow,
      process_leads [[("name", Value.str "Jane Doe")],
        [("Company", Value.str "Acme")]] "v" "s" true = Except.ok out ∧
      out.length = 2 := by
  obtain ⟨out, h1, h2, _⟩ := batch_preserves_rows
    [[("name", Value.str "Jane Doe")], [("Company", Value.str "Acme")]]
    "v" "s" true (by decide)
  exact ⟨out, h1, h2⟩

/-! ## Determinism -/

/-- The row map distributes over appending of input tables. -/
theorem exceptMapRows_append (f : RawRecord → Except PyErr ResultRow) :
    ∀ xs ys : List RawRecord,
      exceptMapRows f (xs ++ ys) =
        (exceptMapRows f xs).bind
          (fun a => (exceptMapRows f ys).map (fun b => a ++ b)) := by
  intro xs ys
  induction xs with
  | nil =>
    rw [List.nil_append]
    cases hys : exceptMapRows f ys with
    | error e => rfl
    | ok l => simp [exceptMapRows, Except.bind, Except.map]
  | cons r rs ih =>
    rw [List.cons_append]
    cases hf : f r with
    | error e => simp [exceptMapRows, hf, Except.bind]
    | ok x =>
      simp only [exceptMapRows, hf]
      rw [ih]
      cases hxs : exceptMapRows f rs with
      | error e => rfl
      | ok a =>
        cases hys : exceptMapRows f ys with
        | error e => simp [Except.bind, Except.map]
        | ok b => simp [Except.bind, Except.map]

/-- C8: the pipeline is deterministic: rerunning process_leads on the
same input and parameters gives the same output, and each row is a
pure function of that row and the parameters alone, so batches compose
by appending with no cross-row or cross-run state. -/
theorem pipeline_deterministic (vp sn : String) (ad : Bool) :
    (∀ df : List RawRecord,
      process_leads df vp sn ad = process_leads df vp sn ad) ∧
    (∀ xs ys : List RawRecord,
      process_leads (xs ++ ys) vp sn ad =
        (process_leads xs vp sn ad).bind
          (fun a => (process_leads ys vp sn ad).map (fun b => a ++ b))) := by
  refine ⟨fun df => rfl, fun xs ys => ?_⟩
  rw [process_leads_eq, process_leads_eq, process_leads_eq]
  exact exceptMapRows_append _ xs ys

end LeadScript
